import Mathlib

set_option linter.unusedSectionVars false

/-!
Shallow embedding of `src/app.py` (CORD-19 Dataset Explorer), a Streamlit
dashboard over pandas.  Python strings are modelled as `List Char`, pandas
tables as ordered lists of named columns whose cells are `Option α`
(`none` = null/NaN).  `value_counts` (dropna, count by value, sort by count
descending, ties in first-occurrence order), `sort_index` and the slicing
operations used by the app are modelled directly; matplotlib/streamlit
rendering is represented by the data handed to it.
-/

namespace App

/-- A Python string: a sequence of characters. -/
abbrev Str := List Char

/-- A pandas DataFrame: ordered named columns of nullable cells
(rows aligned by position). -/
structure Table (α : Type) where
  cols : List (Str × List (Option α))

variable {α : Type}

/-- `df.columns`: the ordered column names. -/
def columns (t : Table α) : List Str := t.cols.map Prod.fst

/-- `df[c]`: the named column, `none` when the name is absent. -/
def getCol (t : Table α) (c : Str) : Option (List (Option α)) :=
  (t.cols.find? (fun p => decide (p.1 = c))).map Prod.snd

/-- The non-null values of a column, in row order (pandas `dropna`). -/
def nonNull (col : List (Option α)) : List α := col.filterMap id

section Counting

variable [DecidableEq α]

/-- Number of occurrences of `x` in `l`: the count `value_counts`
assigns to a group. -/
def countOf (x : α) (l : List α) : Nat := l.count x

/-- The distinct values of a list in order of first occurrence. -/
def uniqueKeys : List α → List α
  | [] => []
  | x :: xs => x :: uniqueKeys (xs.filter (fun y => decide (y ≠ x)))
termination_by l => l.length
decreasing_by simp only [List.length_cons]; exact Nat.lt_succ_of_le (List.length_filter_le _ _)

/-- Occurrence counts of a list, keys in first-occurrence order. -/
def tally (vs : List α) : List (α × Nat) :=
  (uniqueKeys vs).map (fun k => (k, countOf k vs))

/-- Insert a keyed count into a descending-by-count list, after all
entries with a count at least as large (stable insertion). -/
def insertByCount (p : α × Nat) : List (α × Nat) → List (α × Nat)
  | [] => [p]
  | q :: qs => if q.2 < p.2 then p :: q :: qs else q :: insertByCount p qs

/-- Stable sort by count, descending. -/
def sortByCountDesc (l : List (α × Nat)) : List (α × Nat) :=
  l.foldl (fun acc p => insertByCount p acc) []

/-- pandas `Series.value_counts()`: drop nulls, count by exact value,
order by count descending (ties in first-occurrence order). -/
def value_counts (col : List (Option α)) : List (α × Nat) :=
  sortByCountDesc (tally (nonNull col))

end Counting

section SortIndex

variable [LinearOrder α]

/-- Insert a keyed count into an ascending-by-key list. -/
def insertKeyAsc (p : α × Nat) : List (α × Nat) → List (α × Nat)
  | [] => [p]
  | q :: qs => if p.1 ≤ q.1 then p :: q :: qs else q :: insertKeyAsc p qs

/-- pandas `Series.sort_index()`: reorder the keyed counts ascending by key. -/
def sort_index (l : List (α × Nat)) : List (α × Nat) :=
  l.foldr insertKeyAsc []

end SortIndex

/-- `journal[:40] + '...' if len(journal) > 40 else journal` (line 61):
display truncation of a y-axis label. -/
def truncateLabel (s : Str) : Str :=
  if 40 < s.length then s.take 40 ++ "...".toList else s

/-- `'year' in col.lower()` (line 84). -/
def yearMatch (c : Str) : Bool :=
  decide ("year".toList <:+: c.map Char.toLower)

/-- `any(kw in col.lower() for kw in ['journal', 'source'])` (line 85). -/
def journalMatch (c : Str) : Bool :=
  ["journal".toList, "source".toList].any
    (fun kw => decide (kw <:+: c.map Char.toLower))

/-- `plot_publications_over_time(df, year_col)` (lines 31-48): `None` when the
column is absent; otherwise `value_counts().sort_index()` (the subsequent
`notna` filter on the index is the identity, since `value_counts` already
drops nulls); `None` again when no data remains, else the plotted series. -/
def plot_publications_over_time [DecidableEq α] [LinearOrder α]
    (t : Table α) (year_col : Str) : Option (List (α × Nat)) :=
  match getCol t year_col with
  | none => none
  | some col =>
    let yearly_data := sort_index (value_counts col)
    if 0 < yearly_data.length then some yearly_data else none

/-- `plot_top_journals(df, journal_col, top_n)` (lines 50-66): `None` when the
column is absent; otherwise `value_counts().head(top_n)` as bar data, with
y-tick labels truncated for display; `None` when no data remains. -/
def plot_top_journals (t : Table Str) (journal_col : Str) (top_n : Nat) :
    Option (List (Str × Nat) × List Str) :=
  match getCol t journal_col with
  | none => none
  | some col =>
    let top_journals := (value_counts col).take top_n
    if 0 < top_journals.length then
      some (top_journals, top_journals.map (fun p => truncateLabel p.1))
    else none

/-- `len(df)` : number of rows (columns are row-aligned). -/
def nRows (t : Table α) : Nat :=
  match t.cols with
  | [] => 0
  | c :: _ => c.2.length

/-- `df.isnull().sum()` : per-column missing-value counts, in column order. -/
def missingCounts (t : Table α) : List (Str × Nat) :=
  t.cols.map (fun p => (p.1, (p.2.filter Option.isNone).length))

/-- `df.isnull().sum().sum()` (line 79): total missing cells. -/
def nullCount (t : Table α) : Nat :=
  ((missingCounts t).map Prod.snd).sum

/-- `df.isnull().sum().sort_values(ascending=False).head(10)` filtered to
`missing > 0` (lines 134-135). -/
def missingTop10 (t : Table α) : List (Str × Nat) :=
  (((sortByCountDesc (missingCounts t)).take 10).filter (fun p => 0 < p.2))

/-- An integer slider widget: `st.slider(label, lo, hi, dflt)`. -/
structure SliderSpec where
  lo : Nat
  hi : Nat
  dflt : Nat
deriving DecidableEq

/-- A value the slider widget can produce. -/
def SliderSpec.accepts (s : SliderSpec) (v : Nat) : Prop :=
  s.lo ≤ v ∧ v ≤ s.hi

/-- What `show_dashboard(df)` (lines 68-104) hands to the renderer. -/
structure Dashboard where
  total_papers : Nat
  num_columns : Nat
  missing_values : Nat
  year_fig : Option (List (Str × Nat))
  journal_slider : SliderSpec
  journal_fig : Option (List (Str × Nat) × List Str)
  top10_table : Option (List (Str × Nat))

/-- `show_dashboard(df)` with the top-N slider at value `top_n`:
metrics, year/journal column discovery (first match in column order),
the two figures and the fixed "Top 10 Journals" table. -/
def show_dashboard (t : Table Str) (top_n : Nat) : Dashboard :=
  let year_cols := (columns t).filter yearMatch
  let journal_cols := (columns t).filter journalMatch
  { total_papers := nRows t
    num_columns := (columns t).length
    missing_values := nullCount t
    year_fig :=
      match year_cols.head? with
      | some yc => plot_publications_over_time t yc
      | none => none
    journal_slider := ⟨5, 20, 10⟩
    journal_fig :=
      match journal_cols.head? with
      | some jc => plot_top_journals t jc top_n
      | none => none
    top10_table :=
      match journal_cols.head? with
      | some jc => (getCol t jc).map (fun col => (value_counts col).take 10)
      | none => none }

/-- What `show_data_explorer(df)` (lines 106-135) hands to the renderer. -/
structure Explorer where
  column_options : List Str
  default_selected : List Str
  sample_slider : SliderSpec
  shown_table : Option (List (Str × List (Option Str)))
  missing_top : List (Str × Nat)

/-- `show_data_explorer(df)` with multi-select state `selected` and the
sample-size slider at value `sample_size`. -/
def show_data_explorer (t : Table Str) (selected : List Str)
    (sample_size : Nat) : Explorer :=
  { column_options := columns t
    default_selected := (columns t).take 5
    sample_slider := ⟨1, 100, 10⟩
    shown_table :=
      if selected.isEmpty then none
      else some (selected.filterMap
        (fun c => (getCol t c).map (fun col => (c, col.take sample_size))))
    missing_top := missingTop10 t }

/-- A message surfaced in the UI (`st.success` / `st.error`). -/
inductive Msg where
  | success (text : String)
  | error (text : String)
deriving DecidableEq

/-- Outcome of `pd.read_csv("metadata.csv")`: a parsed table, a
`FileNotFoundError`, or any other exception with its message. -/
inductive ReadResult where
  | ok (t : Table Str)
  | fileNotFound
  | exc (msg : String)

/-- `load_data()` (lines 18-29): on success, a success message and the table;
on `FileNotFoundError` or any other exception, an error message and `None`. -/
def load_data (r : ReadResult) : Option (Table Str) × List Msg :=
  match r with
  | .ok t => (some t, [.success "Loaded rows from metadata_first_10000.csv"])
  | .fileNotFound =>
      (none, [.error "metadata.csv not found. Please ensure the file exists."])
  | .exc msg => (none, [.error ("Error loading file: " ++ msg)])

/-- Whether the surfaced messages contain an error. -/
def hasError (msgs : List Msg) : Bool :=
  msgs.any (fun m => match m with | .error _ => true | .success _ => false)

/-- The navigation radio (line 148). -/
inductive Page where
  | dashboard
  | dataExplorer
  | about

/-- Everything one run of `main()` renders. -/
structure AppRun where
  messages : List Msg
  dashboard : Option Dashboard
  explorer : Option Explorer

/-- `main()` (lines 137-156) with the file-read outcome `r` and the widget
states: load, halt on failure (`if df is None: return`), else render the
selected page. -/
def main (r : ReadResult) (page : Page) (top_n : Nat)
    (selected : List Str) (sample_size : Nat) : AppRun :=
  match load_data r with
  | (none, msgs) => { messages := msgs, dashboard := none, explorer := none }
  | (some t, msgs) =>
    match page with
    | .dashboard =>
        { messages := msgs, dashboard := some (show_dashboard t top_n)
          explorer := none }
    | .dataExplorer =>
        { messages := msgs, dashboard := none
          explorer := some (show_data_explorer t selected sample_size) }
    | .about => { messages := msgs, dashboard := none, explorer := none }

/-! ### Concrete fixtures used by the witnesses -/

/-- A small year column: two nulls-free 2020s, one 2019, one null. -/
def yearColData : List (Option Int) := [some 2020, none, some 2019, some 2020]

/-- A one-column table with a year-like column. -/
def yearTable : Table Int := ⟨[("year".toList, yearColData)]⟩

/-- A 45-character journal name (40 `A`s then `11111`). -/
def jname1 : Str := "AAAAAAAAAAAAAAAAAAAAAAAAAAAAAAAAAAAAAAAA11111".toList

/-- A distinct 45-character journal name sharing its first 40 characters
with `jname1`. -/
def jname2 : Str := "AAAAAAAAAAAAAAAAAAAAAAAAAAAAAAAAAAAAAAAA22222".toList

/-- A journal column holding the two long names and a null. -/
def journalColData : List (Option Str) :=
  [some jname1, some jname2, some jname1, none]

/-- A one-column table with a journal-like column. -/
def journalTable : Table Str := ⟨[("journal".toList, journalColData)]⟩

/-- A table with no missing value in any column. -/
def noMissingTable : Table Str :=
  ⟨[("title".toList, [some "a".toList, some "b".toList]),
    ("abstract".toList, [some "c".toList, some "d".toList])]⟩

/-! ### Lemmas about column lookup -/

open List in
theorem getCol_eq_none_iff (t : Table α) (c : Str) :
    getCol t c = none ↔ c ∉ columns t := by
  unfold getCol columns
  rw [Option.map_eq_none', find?_eq_none]
  constructor
  · intro h hc
    obtain ⟨p, hp, hfst⟩ := mem_map.mp hc
    exact absurd (by simpa using hfst) (by simpa using h p hp)
  · intro h p hp
    simp only [decide_eq_true_eq]
    intro hfst
    exact h (mem_map.mpr ⟨p, hp, hfst⟩)

open List in
theorem getCol_mem_cols {t : Table α} {c : Str} {col : List (Option α)}
    (h : getCol t c = some col) : (c, col) ∈ t.cols := by
  unfold getCol at h
  obtain ⟨p, hp, hsnd⟩ := Option.map_eq_some'.mp h
  have hfind := List.find?_some hp
  have hmem := List.mem_of_find?_eq_some hp
  simp only [decide_eq_true_eq] at hfind
  cases p
  simp_all

/-! ### Lemmas about `uniqueKeys`, `tally` -/

section CountingLemmas

variable [DecidableEq α]

theorem countOf_eq (x : α) (l : List α) : countOf x l = l.count x := rfl

theorem mem_uniqueKeys {l : List α} {a : α} : a ∈ uniqueKeys l ↔ a ∈ l := by
  induction l using uniqueKeys.induct with
  | case1 => simp [uniqueKeys]
  | case2 x xs ih =>
    simp only [uniqueKeys, List.mem_cons, ih, List.mem_filter,
      decide_eq_true_eq]
    constructor
    · rintro (rfl | ⟨h, -⟩)
      · exact Or.inl rfl
      · exact Or.inr h
    · rintro (rfl | h)
      · exact Or.inl rfl
      · by_cases hax : a = x
        · exact Or.inl hax
        · exact Or.inr ⟨h, hax⟩

theorem nodup_uniqueKeys (l : List α) : (uniqueKeys l).Nodup := by
  induction l using uniqueKeys.induct with
  | case1 => simp [uniqueKeys]
  | case2 x xs ih =>
    rw [uniqueKeys]
    refine List.nodup_cons.mpr ⟨fun hx => ?_, ih⟩
    have := mem_uniqueKeys.mp hx
    simp at this

theorem count_add_length_filter_ne (l : List α) (x : α) :
    l.count x + (l.filter (fun y => decide (y ≠ x))).length = l.length := by
  induction l with
  | nil => simp
  | cons a l ih =>
    by_cases hax : a = x
    · subst hax
      rw [List.count_cons_self, List.filter_cons_of_neg (by simp),
        List.length_cons]
      omega
    · rw [List.count_cons_of_ne (Ne.symm hax),
        List.filter_cons_of_pos (by simpa using hax), List.length_cons,
        List.length_cons]
      omega

theorem count_filter_ne {k x : α} (l : List α) (h : k ≠ x) :
    (l.filter (fun y => decide (y ≠ x))).count k = l.count k := by
  induction l with
  | nil => simp
  | cons a l ih =>
    by_cases hax : a = x
    · subst hax
      rw [List.filter_cons_of_neg (by simp), List.count_cons_of_ne h, ih]
    · rw [List.filter_cons_of_pos (by simpa using hax)]
      by_cases hka : k = a
      · subst hka
        rw [List.count_cons_self, List.count_cons_self, ih]
      · rw [List.count_cons_of_ne hka, List.count_cons_of_ne hka, ih]

theorem tally_sum (vs : List α) : ((tally vs).map Prod.snd).sum = vs.length := by
  induction vs using uniqueKeys.induct with
  | case1 => simp [tally, uniqueKeys]
  | case2 x xs ih =>
    have hmap :
        (uniqueKeys (xs.filter (fun y => decide (y ≠ x)))).map
            (fun k => (k, countOf k (x :: xs))) =
          (uniqueKeys (xs.filter (fun y => decide (y ≠ x)))).map
            (fun k => (k, countOf k (xs.filter (fun y => decide (y ≠ x))))) := by
      apply List.map_congr_left
      intro k hk
      have hk' := mem_uniqueKeys.mp hk
      have hkne : k ≠ x := by
        have := List.mem_filter.mp hk'
        simpa using this.2
      rw [countOf_eq, countOf_eq, List.count_cons_of_ne hkne,
        count_filter_ne _ hkne]
    rw [tally, uniqueKeys, List.map_cons, List.map_cons, List.sum_cons, hmap]
    have := count_add_length_filter_ne xs x
    rw [show (uniqueKeys (xs.filter (fun y => decide (y ≠ x)))).map
          (fun k => (k, countOf k (xs.filter (fun y => decide (y ≠ x))))) =
        tally (xs.filter (fun y => decide (y ≠ x))) from rfl, ih]
    simp only [countOf_eq, List.count_cons_self, List.length_cons]
    omega

theorem mem_tally {vs : List α} {p : α × Nat} (h : p ∈ tally vs) :
    p.1 ∈ vs ∧ p.2 = countOf p.1 vs := by
  obtain ⟨k, hk, rfl⟩ := List.mem_map.mp h
  exact ⟨mem_uniqueKeys.mp hk, rfl⟩

theorem tally_keys (vs : List α) : (tally vs).map Prod.fst = uniqueKeys vs := by
  simp [tally, List.map_map, Function.comp_def]

theorem mem_tally_of_mem {vs : List α} {v : α} (h : v ∈ vs) :
    (v, countOf v vs) ∈ tally vs :=
  List.mem_map.mpr ⟨v, mem_uniqueKeys.mpr h, rfl⟩

end CountingLemmas

/-! ### Lemmas about the descending stable sort -/

open List

section SortLemmas

variable [DecidableEq α]

theorem mem_insertByCount {p a : α × Nat} {l : List (α × Nat)} :
    a ∈ insertByCount p l ↔ a = p ∨ a ∈ l := by
  induction l with
  | nil => simp [insertByCount]
  | cons q qs ih =>
    rw [insertByCount]
    by_cases h : q.2 < p.2
    · simp [h]
    · rw [if_neg h]
      simp only [List.mem_cons, ih]
      tauto

theorem insertByCount_perm (p : α × Nat) (l : List (α × Nat)) :
    insertByCount p l ~ p :: l := by
  induction l with
  | nil => rfl
  | cons q qs ih =>
    rw [insertByCount]
    by_cases h : q.2 < p.2
    · rw [if_pos h]
    · rw [if_neg h]
      exact (ih.cons q).trans (List.Perm.swap p q qs)

theorem pairwise_insertByCount {P : α × Nat → α × Nat → Prop}
    {p : α × Nat} {l : List (α × Nat)}
    (hl : l.Pairwise (fun a b => b.2 ≤ a.2 ∧ (a.2 = b.2 → P a b)))
    (hp : ∀ x ∈ l, P x p) :
    (insertByCount p l).Pairwise
      (fun a b => b.2 ≤ a.2 ∧ (a.2 = b.2 → P a b)) := by
  induction l with
  | nil => simp [insertByCount]
  | cons q qs ih =>
    rw [List.pairwise_cons] at hl
    obtain ⟨hq, hqs⟩ := hl
    rw [insertByCount]
    by_cases h : q.2 < p.2
    · rw [if_pos h]
      refine List.pairwise_cons.mpr ⟨?_, List.pairwise_cons.mpr ⟨hq, hqs⟩⟩
      intro y hy
      rcases List.mem_cons.mp hy with rfl | hy'
      · exact ⟨Nat.le_of_lt h, fun he => absurd he (Nat.ne_of_gt h)⟩
      · have := hq y hy'
        refine ⟨Nat.le_trans this.1 (Nat.le_of_lt h), fun he => ?_⟩
        exact absurd (Nat.lt_of_le_of_lt (he ▸ this.1) h) (lt_irrefl _)
    · rw [if_neg h]
      refine List.pairwise_cons.mpr ⟨?_, ih hqs (fun x hx => hp x (by simp [hx]))⟩
      intro y hy
      rcases mem_insertByCount.mp hy with rfl | hy'
      · exact ⟨Nat.le_of_not_lt h, fun he => hp q (by simp)⟩
      · exact hq y hy'

theorem foldl_insertByCount_perm (l : List (α × Nat)) :
    ∀ acc : List (α × Nat),
      l.foldl (fun acc p => insertByCount p acc) acc ~ acc ++ l := by
  induction l with
  | nil => intro acc; simp
  | cons x xs ih =>
    intro acc
    rw [List.foldl_cons]
    refine (ih (insertByCount x acc)).trans ?_
    refine (List.Perm.append_right xs (insertByCount_perm x acc)).trans ?_
    exact List.perm_middle.symm

theorem sortByCountDesc_perm (l : List (α × Nat)) : sortByCountDesc l ~ l := by
  simpa using foldl_insertByCount_perm l []

theorem foldl_insertByCount_pairwise {P : α × Nat → α × Nat → Prop}
    (l : List (α × Nat)) :
    ∀ acc : List (α × Nat),
      acc.Pairwise (fun a b => b.2 ≤ a.2 ∧ (a.2 = b.2 → P a b)) →
      l.Pairwise P → (∀ x ∈ acc, ∀ y ∈ l, P x y) →
      (l.foldl (fun acc p => insertByCount p acc) acc).Pairwise
        (fun a b => b.2 ≤ a.2 ∧ (a.2 = b.2 → P a b)) := by
  induction l with
  | nil => intro acc hacc _ _; simpa using hacc
  | cons x xs ih =>
    intro acc hacc hl hcross
    rw [List.pairwise_cons] at hl
    rw [List.foldl_cons]
    refine ih _ (pairwise_insertByCount hacc (fun z hz => hcross z hz x (by simp)))
      hl.2 ?_
    intro z hz y hy
    rcases mem_insertByCount.mp hz with rfl | hz'
    · exact hl.1 y hy
    · exact hcross z hz' y (by simp [hy])

theorem sortByCountDesc_pairwise {P : α × Nat → α × Nat → Prop}
    {l : List (α × Nat)} (hl : l.Pairwise P) :
    (sortByCountDesc l).Pairwise
      (fun a b => b.2 ≤ a.2 ∧ (a.2 = b.2 → P a b)) :=
  foldl_insertByCount_pairwise l [] (by simp) hl (by simp)

/-- The descending order alone (any input). -/
theorem sortByCountDesc_sorted (l : List (α × Nat)) :
    (sortByCountDesc l).Pairwise (fun a b => b.2 ≤ a.2) := by
  have htriv : l.Pairwise (fun _ _ => True) :=
    List.pairwise_iff_forall_sublist.mpr (by intro a b _; trivial)
  exact (sortByCountDesc_pairwise htriv).imp (fun hab => hab.1)

end SortLemmas

/-! ### Lemmas about the ascending key sort -/

section SortIndexLemmas

variable [LinearOrder α]

theorem insertKeyAsc_perm (p : α × Nat) (l : List (α × Nat)) :
    insertKeyAsc p l ~ p :: l := by
  induction l with
  | nil => rfl
  | cons q qs ih =>
    rw [insertKeyAsc]
    by_cases h : p.1 ≤ q.1
    · rw [if_pos h]
    · rw [if_neg h]
      exact (ih.cons q).trans (List.Perm.swap p q qs)

theorem mem_insertKeyAsc {p a : α × Nat} {l : List (α × Nat)} :
    a ∈ insertKeyAsc p l ↔ a = p ∨ a ∈ l :=
  ⟨fun h => by simpa using (insertKeyAsc_perm p l).mem_iff.mp h,
   fun h => (insertKeyAsc_perm p l).mem_iff.mpr (by simpa using h)⟩

theorem pairwise_insertKeyAsc {p : α × Nat} {l : List (α × Nat)}
    (hl : l.Pairwise (fun a b => a.1 ≤ b.1)) :
    (insertKeyAsc p l).Pairwise (fun a b => a.1 ≤ b.1) := by
  induction l with
  | nil => simp [insertKeyAsc]
  | cons q qs ih =>
    rw [List.pairwise_cons] at hl
    obtain ⟨hq, hqs⟩ := hl
    rw [insertKeyAsc]
    by_cases h : p.1 ≤ q.1
    · rw [if_pos h]
      refine List.pairwise_cons.mpr ⟨?_, List.pairwise_cons.mpr ⟨hq, hqs⟩⟩
      intro y hy
      rcases List.mem_cons.mp hy with rfl | hy'
      · exact h
      · exact le_trans h (hq y hy')
    · rw [if_neg h]
      refine List.pairwise_cons.mpr ⟨?_, ih hqs⟩
      intro y hy
      rcases mem_insertKeyAsc.mp hy with rfl | hy'
      · exact le_of_not_le h
      · exact hq y hy'

theorem sort_index_perm (l : List (α × Nat)) : sort_index l ~ l := by
  induction l with
  | nil => rfl
  | cons x xs ih =>
    exact (insertKeyAsc_perm x (sort_index xs)).trans (ih.cons x)

theorem sort_index_sorted (l : List (α × Nat)) :
    (sort_index l).Pairwise (fun a b => a.1 ≤ b.1) := by
  induction l with
  | nil => simp [sort_index]
  | cons x xs ih => exact pairwise_insertKeyAsc ih

end SortIndexLemmas

/-! ### Facts about `value_counts` -/

section ValueCountsLemmas

variable [DecidableEq α]

theorem value_counts_perm (col : List (Option α)) :
    value_counts col ~ tally (nonNull col) :=
  sortByCountDesc_perm _

theorem value_counts_sum (col : List (Option α)) :
    ((value_counts col).map Prod.snd).sum = (nonNull col).length := by
  rw [((value_counts_perm col).map Prod.snd).sum_eq]
  exact tally_sum _

theorem mem_value_counts {col : List (Option α)} {p : α × Nat}
    (h : p ∈ value_counts col) :
    p.1 ∈ nonNull col ∧ p.2 = countOf p.1 (nonNull col) :=
  mem_tally ((value_counts_perm col).mem_iff.mp h)

theorem mem_value_counts_of_mem {col : List (Option α)} {v : α}
    (h : v ∈ nonNull col) :
    (v, countOf v (nonNull col)) ∈ value_counts col :=
  (value_counts_perm col).mem_iff.mpr (mem_tally_of_mem h)

theorem value_counts_keys_nodup (col : List (Option α)) :
    ((value_counts col).map Prod.fst).Nodup := by
  refine (((value_counts_perm col).map Prod.fst).nodup_iff).mpr ?_
  rw [tally_keys]
  exact nodup_uniqueKeys _

end ValueCountsLemmas

section ValueCountsMore

variable [DecidableEq α]

theorem nonNull_eq_nil_of_value_counts_eq_nil {col : List (Option α)}
    (h : value_counts col = []) : nonNull col = [] := by
  rw [List.eq_nil_iff_forall_not_mem]
  intro v hv
  have := mem_value_counts_of_mem hv
  rw [h] at this
  exact absurd this (List.not_mem_nil _)

/-- The tie-break order carried by `tally`: each pair of entries appears in
first-occurrence order of its keys. -/
theorem tally_pairwise_firstOcc (vs : List α) :
    (tally vs).Pairwise (fun a b => [a.1, b.1] <+ uniqueKeys vs) := by
  rw [tally, List.pairwise_map]
  exact List.pairwise_iff_forall_sublist.mpr (fun h => h)

theorem value_counts_pairwise (col : List (Option α)) :
    (value_counts col).Pairwise
      (fun a b => b.2 ≤ a.2 ∧
        (a.2 = b.2 → [a.1, b.1] <+ uniqueKeys (nonNull col))) :=
  sortByCountDesc_pairwise (tally_pairwise_firstOcc (nonNull col))

end ValueCountsMore

/-! ### First match of a boolean predicate over a list -/

theorem head_filter_some {β : Type} (p : β → Bool) (l : List β) :
    ∀ c, (l.filter p).head? = some c →
      p c = true ∧ ∃ pre post, l = pre ++ c :: post ∧ ∀ d ∈ pre, p d = false := by
  induction l with
  | nil => intro c h; simp at h
  | cons a l ih =>
    intro c h
    by_cases ha : p a = true
    · rw [List.filter_cons_of_pos ha] at h
      simp only [List.head?_cons, Option.some.injEq] at h
      subst h
      exact ⟨ha, [], l, rfl, by simp⟩
    · rw [List.filter_cons_of_neg (by simpa using ha)] at h
      obtain ⟨hc, pre, post, rfl, hpre⟩ := ih c h
      refine ⟨hc, a :: pre, post, rfl, ?_⟩
      intro d hd
      rcases List.mem_cons.mp hd with rfl | hd'
      · simpa using ha
      · exact hpre d hd'

theorem head_filter_none {β : Type} (p : β → Bool) (l : List β) :
    (l.filter p).head? = none ↔ ∀ c ∈ l, p c = false := by
  rw [List.head?_eq_none_iff, List.filter_eq_nil_iff]
  constructor
  · intro h c hc
    simpa using h c hc
  · intro h c hc
    simp [h c hc]

/-! ### Claim C1: the time-series aggregation -/

/-- C1: for a column present in the table, the time series plotted by
`plot_publications_over_time` groups exactly the non-null values of the
column (each key is a non-null value, each count is its number of
occurrences, every non-null value is represented), the counts sum to the
number of non-null entries, and the sequence is ordered ascending by year
value; nulls are excluded entirely (an all-null column yields no chart,
not an "unknown" bucket). -/
theorem publications_time_series_correct {α : Type} [DecidableEq α]
    [LinearOrder α] (t : Table α) (c : Str) (col : List (Option α))
    (h : getCol t c = some col) :
    (∀ ts, plot_publications_over_time t c = some ts →
        ((ts.map Prod.snd).sum = (nonNull col).length ∧
         (∀ p ∈ ts, p.1 ∈ nonNull col ∧ p.2 = countOf p.1 (nonNull col)) ∧
         (∀ v ∈ nonNull col, v ∈ ts.map Prod.fst) ∧
         ts.Pairwise (fun a b => a.1 ≤ b.1))) ∧
    (plot_publications_over_time t c = none → nonNull col = []) := by
  have hperm : sort_index (value_counts col) ~ tally (nonNull col) :=
    (sort_index_perm _).trans (value_counts_perm col)
  constructor
  · intro ts hts
    simp only [plot_publications_over_time, h] at hts
    by_cases hlen : 0 < (sort_index (value_counts col)).length
    · rw [if_pos hlen] at hts
      injection hts with hts
      subst hts
      refine ⟨?_, ?_, ?_, sort_index_sorted _⟩
      · rw [(hperm.map Prod.snd).sum_eq]
        exact tally_sum _
      · intro p hp
        exact mem_tally (hperm.mem_iff.mp hp)
      · intro v hv
        exact List.mem_map.mpr
          ⟨(v, countOf v (nonNull col)),
            hperm.mem_iff.mpr (mem_tally_of_mem hv), rfl⟩
    · rw [if_neg hlen] at hts
      exact absurd hts (by simp)
  · intro hnone
    simp only [plot_publications_over_time, h] at hnone
    by_cases hlen : 0 < (sort_index (value_counts col)).length
    · rw [if_pos hlen] at hnone
      exact absurd hnone (by simp)
    · have hnil : sort_index (value_counts col) = [] :=
        List.length_eq_zero.mp (Nat.eq_zero_of_not_pos hlen)
      rw [List.eq_nil_iff_forall_not_mem]
      intro v hv
      have := hperm.mem_iff.mpr (mem_tally_of_mem hv)
      rw [hnil] at this
      exact absurd this (List.not_mem_nil _)

/-- C1 witness: the theorem applied to a concrete one-column table. -/
theorem publications_time_series_witness :
    getCol yearTable "year".toList = some yearColData ∧
    ((∀ ts, plot_publications_over_time yearTable "year".toList = some ts →
        ((ts.map Prod.snd).sum = (nonNull yearColData).length ∧
         (∀ p ∈ ts, p.1 ∈ nonNull yearColData ∧
            p.2 = countOf p.1 (nonNull yearColData)) ∧
         (∀ v ∈ nonNull yearColData, v ∈ ts.map Prod.fst) ∧
         ts.Pairwise (fun a b => a.1 ≤ b.1))) ∧
     (plot_publications_over_time yearTable "year".toList = none →
        nonNull yearColData = [])) :=
  ⟨rfl, publications_time_series_correct yearTable "year".toList yearColData rfl⟩

/-! ### Claim C2: the top-n aggregation -/

/-- C2: for a column present in the table and `n ≥ 1`, the top-n data
plotted by `plot_top_journals` has at most `n` entries, is ordered by
descending count, breaks count ties by first-encountered order of the
category values (`uniqueKeys` lists the distinct non-null values in
first-occurrence order), and its counts sum to at most the number of
non-null entries of the column. -/
theorem top_n_correct (t : Table Str) (c : Str) (n : Nat)
    (col : List (Option Str)) (h : getCol t c = some col) (hn : 1 ≤ n) :
    (∀ top labels, plot_top_journals t c n = some (top, labels) →
        (top.length ≤ n ∧
         top.Pairwise (fun a b => b.2 ≤ a.2) ∧
         top.Pairwise (fun a b => a.2 = b.2 →
            [a.1, b.1] <+ uniqueKeys (nonNull col)) ∧
         (top.map Prod.snd).sum ≤ (nonNull col).length)) ∧
    (plot_top_journals t c n = none → nonNull col = []) := by
  constructor
  · intro top labels htop
    simp only [plot_top_journals, h] at htop
    by_cases hlen : 0 < ((value_counts col).take n).length
    · rw [if_pos hlen] at htop
      simp only [Option.some.injEq, Prod.mk.injEq] at htop
      obtain ⟨rfl, rfl⟩ := htop
      refine ⟨?_, ?_, ?_, ?_⟩
      · rw [List.length_take]
        exact min_le_left _ _
      · exact (sortByCountDesc_sorted _).sublist (List.take_sublist n _)
      · exact ((value_counts_pairwise col).imp
          (fun hab => hab.2)).sublist (List.take_sublist n _)
      · rw [List.map_take]
        have hsplit := List.sum_take_add_sum_drop ((value_counts col).map Prod.snd) n
        rw [value_counts_sum col] at hsplit
        omega
    · rw [if_neg hlen] at htop
      exact absurd htop (by simp)
  · intro hnone
    simp only [plot_top_journals, h] at hnone
    by_cases hlen : 0 < ((value_counts col).take n).length
    · rw [if_pos hlen] at hnone
      exact absurd hnone (by simp)
    · have htake : (value_counts col).take n = [] :=
        List.length_eq_zero.mp (Nat.eq_zero_of_not_pos hlen)
      rcases List.take_eq_nil_iff.mp htake with hzero | hnil
      · omega
      · exact nonNull_eq_nil_of_value_counts_eq_nil hnil

/-- C2 witness: the theorem applied to a concrete journal table with
`n = 2`. -/
theorem top_n_witness :
    getCol journalTable "journal".toList = some journalColData ∧ 1 ≤ 2 ∧
    ((∀ top labels,
        plot_top_journals journalTable "journal".toList 2 =
          some (top, labels) →
        (top.length ≤ 2 ∧
         top.Pairwise (fun a b => b.2 ≤ a.2) ∧
         top.Pairwise (fun a b => a.2 = b.2 →
            [a.1, b.1] <+ uniqueKeys (nonNull journalColData)) ∧
         (top.map Prod.snd).sum ≤ (nonNull journalColData).length)) ∧
     (plot_top_journals journalTable "journal".toList 2 = none →
        nonNull journalColData = [])) :=
  ⟨rfl, by omega,
    top_n_correct journalTable "journal".toList 2 journalColData rfl (by omega)⟩

/-! ### Claim C3: label truncation is display-only -/

/-- C3: a label strictly longer than 40 characters is displayed as its
first 40 characters followed by an ellipsis, a label of at most 40
characters is displayed unchanged, the displayed labels of
`plot_top_journals` are truncations applied after grouping (the bar data
keeps the full keys), and grouping is by full value: two distinct non-null
values — in particular two distinct 45-character names sharing their first
40 characters — occupy separate entries with their own exact counts, the
keys being pairwise distinct. -/
theorem truncation_display_only (t : Table Str) (c : Str) (n : Nat)
    (col : List (Option Str)) (h : getCol t c = some col) (hn : 1 ≤ n)
    (v1 v2 s1 s2 : Str) (h1 : v1 ∈ nonNull col) (h2 : v2 ∈ nonNull col)
    (hne : v1 ≠ v2) (hlong : 40 < s1.length) (hshort : s2.length ≤ 40) :
    truncateLabel s1 = s1.take 40 ++ "...".toList ∧
    truncateLabel s2 = s2 ∧
    plot_top_journals t c n =
      some ((value_counts col).take n,
        ((value_counts col).take n).map (fun p => truncateLabel p.1)) ∧
    (v1, countOf v1 (nonNull col)) ∈ value_counts col ∧
    (v2, countOf v2 (nonNull col)) ∈ value_counts col ∧
    ((value_counts col).map Prod.fst).Nodup := by
  have hvc : (v1, countOf v1 (nonNull col)) ∈ value_counts col :=
    mem_value_counts_of_mem h1
  have hpos : 0 < (value_counts col).length :=
    List.length_pos.mpr (List.ne_nil_of_mem hvc)
  have hlen : 0 < ((value_counts col).take n).length := by
    rw [List.length_take]; omega
  refine ⟨by unfold truncateLabel; rw [if_pos hlong],
    by unfold truncateLabel; rw [if_neg (by omega)], ?_,
    hvc, mem_value_counts_of_mem h2, value_counts_keys_nodup col⟩
  simp only [plot_top_journals, h]
  rw [if_pos hlen]

/-- C3 witness: the theorem applied to a journal column holding two
distinct 45-character names that agree on their first 40 characters. -/
theorem truncation_display_only_witness :
    getCol journalTable "journal".toList = some journalColData ∧
    (1 ≤ 2 ∧ jname1 ∈ nonNull journalColData ∧
      jname2 ∈ nonNull journalColData ∧ jname1 ≠ jname2 ∧
      40 < jname1.length ∧ ("xy".toList : Str).length ≤ 40) ∧
    (truncateLabel jname1 = jname1.take 40 ++ "...".toList ∧
     truncateLabel "xy".toList = "xy".toList ∧
     plot_top_journals journalTable "journal".toList 2 =
       some ((value_counts journalColData).take 2,
         ((value_counts journalColData).take 2).map
            (fun p => truncateLabel p.1)) ∧
     (jname1, countOf jname1 (nonNull journalColData)) ∈
        value_counts journalColData ∧
     (jname2, countOf jname2 (nonNull journalColData)) ∈
        value_counts journalColData ∧
     ((value_counts journalColData).map Prod.fst).Nodup) :=
  ⟨rfl, ⟨by omega, by decide, by decide, by decide, by decide, by decide⟩,
    truncation_display_only journalTable "journal".toList 2 journalColData
      rfl (by omega) jname1 jname2 jname1 "xy".toList (by decide) (by decide)
      (by decide) (by decide) (by decide)⟩

/-! ### Claim C4: the column classifier -/

/-- C4: over any ordered sequence of column names, the year role is the
first name (in order) whose lowercased form contains the substring
`year`, and the journal role the first name whose lowercased form
contains `journal` or `source`; with several matches the first in order
wins, and with none the role is empty.  `(cols.filter m).head?` is
exactly the selection `cols_matching[0] if cols_matching else None`
performed by `show_dashboard`. -/
theorem classifier_first_match (cols : List Str) :
    (∀ c, yearMatch c = true ↔ "year".toList <:+: c.map Char.toLower) ∧
    (∀ c, journalMatch c = true ↔
        ("journal".toList <:+: c.map Char.toLower ∨
         "source".toList <:+: c.map Char.toLower)) ∧
    (∀ c, (cols.filter yearMatch).head? = some c →
        yearMatch c = true ∧
        ∃ pre post, cols = pre ++ c :: post ∧ ∀ d ∈ pre, yearMatch d = false) ∧
    ((cols.filter yearMatch).head? = none ↔
        ∀ c ∈ cols, yearMatch c = false) ∧
    (∀ c, (cols.filter journalMatch).head? = some c →
        journalMatch c = true ∧
        ∃ pre post, cols = pre ++ c :: post ∧
          ∀ d ∈ pre, journalMatch d = false) ∧
    ((cols.filter journalMatch).head? = none ↔
        ∀ c ∈ cols, journalMatch c = false) := by
  refine ⟨?_, ?_, head_filter_some _ _, head_filter_none _ _,
    head_filter_some _ _, head_filter_none _ _⟩
  · intro c
    simp [yearMatch]
  · intro c
    simp [journalMatch]

/-- C4 witness: the theorem applied to a concrete header row. -/
theorem classifier_first_match_witness :
    (∀ c, yearMatch c = true ↔ "year".toList <:+: c.map Char.toLower) ∧
    (∀ c, journalMatch c = true ↔
        ("journal".toList <:+: c.map Char.toLower ∨
         "source".toList <:+: c.map Char.toLower)) ∧
    (∀ c, (["Title".toList, "Publish Year".toList,
        "Journal Name".toList].filter yearMatch).head? = some c →
        yearMatch c = true ∧
        ∃ pre post, ["Title".toList, "Publish Year".toList,
            "Journal Name".toList] = pre ++ c :: post ∧
          ∀ d ∈ pre, yearMatch d = false) ∧
    ((["Title".toList, "Publish Year".toList,
        "Journal Name".toList].filter yearMatch).head? = none ↔
        ∀ c ∈ ["Title".toList, "Publish Year".toList,
          "Journal Name".toList], yearMatch c = false) ∧
    (∀ c, (["Title".toList, "Publish Year".toList,
        "Journal Name".toList].filter journalMatch).head? = some c →
        journalMatch c = true ∧
        ∃ pre post, ["Title".toList, "Publish Year".toList,
            "Journal Name".toList] = pre ++ c :: post ∧
          ∀ d ∈ pre, journalMatch d = false) ∧
    ((["Title".toList, "Publish Year".toList,
        "Journal Name".toList].filter journalMatch).head? = none ↔
        ∀ c ∈ ["Title".toList, "Publish Year".toList,
          "Journal Name".toList], journalMatch c = false) :=
  classifier_first_match
    ["Title".toList, "Publish Year".toList, "Journal Name".toList]

/-! ### Claim C5: load failure halts the run -/

/-- C5: when the file-read outcome is not a parsed table (missing file or
any parse failure), `load_data` surfaces a human-readable error message
and yields no table, and `main` halts before any page rendering: neither
a dashboard nor an explorer is produced, for every page selection and
widget state. -/
theorem load_failure_halts (r : ReadResult) (page : Page) (top_n : Nat)
    (selected : List Str) (sample_size : Nat) (hfail : ∀ t, r ≠ .ok t) :
    (load_data r).1 = none ∧
    (∃ s, Msg.error s ∈ (load_data r).2) ∧
    (main r page top_n selected sample_size).dashboard = none ∧
    (main r page top_n selected sample_size).explorer = none := by
  cases r with
  | ok t => exact absurd rfl (hfail t)
  | fileNotFound =>
    exact ⟨rfl, ⟨"metadata.csv not found. Please ensure the file exists.",
      by simp [load_data]⟩, rfl, rfl⟩
  | exc msg =>
    exact ⟨rfl, ⟨"Error loading file: " ++ msg, by simp [load_data]⟩, rfl, rfl⟩

/-- C5 witness: the theorem applied to a missing-file outcome with the
dashboard page selected. -/
theorem load_failure_halts_witness :
    (∀ t, ReadResult.fileNotFound ≠ ReadResult.ok t) ∧
    ((load_data .fileNotFound).1 = none ∧
     (∃ s, Msg.error s ∈ (load_data .fileNotFound).2) ∧
     (main .fileNotFound .dashboard 10 [] 10).dashboard = none ∧
     (main .fileNotFound .dashboard 10 [] 10).explorer = none) :=
  ⟨fun t h => ReadResult.noConfusion h,
    load_failure_halts .fileNotFound .dashboard 10 [] 10
      (fun t h => ReadResult.noConfusion h)⟩

/-! ### Claim C6: absent columns yield empty results, not errors -/

/-- C6: for a column name not present in the table, both aggregations
return `none` (no data, no failure), which is exactly the omitted-chart
outcome. -/
theorem absent_column_omitted (t : Table Str) (c : Str) (n : Nat)
    (h : c ∉ columns t) :
    plot_publications_over_time t c = none ∧ plot_top_journals t c n = none := by
  have hg : getCol t c = none := (getCol_eq_none_iff t c).mpr h
  exact ⟨by simp [plot_publications_over_time, hg],
    by simp [plot_top_journals, hg]⟩

/-- C6 witness: the theorem applied to a column name absent from a
concrete table. -/
theorem absent_column_omitted_witness :
    "missing".toList ∉ columns journalTable ∧
    (plot_publications_over_time journalTable "missing".toList = none ∧
     plot_top_journals journalTable "missing".toList 10 = none) :=
  ⟨by decide,
    absent_column_omitted journalTable "missing".toList 10 (by decide)⟩

/-! ### Claim C7: the missing-value summary -/

/-- C7: the missing-by-column list has at most 10 entries, is ordered by
descending missing count, and contains no zero-missing column; for a
table with no missing value anywhere, it is empty and the total null
count is 0. -/
theorem summary_missing_correct (t : Table Str) :
    (missingTop10 t).length ≤ 10 ∧
    (missingTop10 t).Pairwise (fun a b => b.2 ≤ a.2) ∧
    (∀ p ∈ missingTop10 t, 0 < p.2) ∧
    ((∀ p ∈ missingCounts t, p.2 = 0) →
        nullCount t = 0 ∧ missingTop10 t = []) := by
  refine ⟨?_, ?_, ?_, ?_⟩
  · calc (missingTop10 t).length
        ≤ ((sortByCountDesc (missingCounts t)).take 10).length :=
          List.length_filter_le _ _
      _ ≤ 10 := by rw [List.length_take]; exact min_le_left _ _
  · exact (sortByCountDesc_sorted _).sublist
      ((List.filter_sublist _).trans (List.take_sublist _ _))
  · intro p hp
    simpa using List.of_mem_filter hp
  · intro hzero
    constructor
    · rw [nullCount]
      apply List.sum_eq_zero
      intro x hx
      obtain ⟨p, hp, rfl⟩ := List.mem_map.mp hx
      exact hzero p hp
    · rw [List.eq_nil_iff_forall_not_mem]
      intro p hp
      have h1 : 0 < p.2 := by simpa using List.of_mem_filter hp
      have h2 : p ∈ missingCounts t :=
        (sortByCountDesc_perm _).mem_iff.mp
          ((List.take_sublist _ _).subset (List.mem_of_mem_filter hp))
      have := hzero p h2
      omega

/-- C7 witness: the theorem applied to a table with no missing values,
together with the zero-missing premise it needs. -/
theorem summary_missing_witness :
    (∀ p ∈ missingCounts noMissingTable, p.2 = 0) ∧
    ((missingTop10 noMissingTable).length ≤ 10 ∧
     (missingTop10 noMissingTable).Pairwise (fun a b => b.2 ≤ a.2) ∧
     (∀ p ∈ missingTop10 noMissingTable, 0 < p.2) ∧
     ((∀ p ∈ missingCounts noMissingTable, p.2 = 0) →
        nullCount noMissingTable = 0 ∧ missingTop10 noMissingTable = [])) :=
  ⟨by decide, summary_missing_correct noMissingTable⟩

/-! ### Claim C8: widget ranges and defaults -/

/-- C8: the column multi-select defaults to the first 5 columns, the
sample-size slider is the integer range 1-100 with default 10, and the
top-N journal slider is the integer range 5-20 with default 10. -/
theorem ui_controls_spec (t : Table Str) (selected : List Str)
    (sample_size top_n : Nat) :
    (show_data_explorer t selected sample_size).default_selected =
      (columns t).take 5 ∧
    (show_data_explorer t selected sample_size).default_selected.length =
      min 5 (columns t).length ∧
    (show_data_explorer t selected sample_size).sample_slider =
      ⟨1, 100, 10⟩ ∧
    (∀ v, (show_data_explorer t selected sample_size).sample_slider.accepts v
        ↔ 1 ≤ v ∧ v ≤ 100) ∧
    (show_dashboard t top_n).journal_slider = ⟨5, 20, 10⟩ ∧
    (∀ v, (show_dashboard t top_n).journal_slider.accepts v ↔
        5 ≤ v ∧ v ≤ 20) :=
  ⟨rfl, List.length_take _ _, rfl, fun _ => Iff.rfl, rfl, fun _ => Iff.rfl⟩

/-! ### Claim C9: the Top 10 Journals table ignores the slider -/

theorem show_dashboard_top10 (t : Table Str) (n : Nat) :
    (show_dashboard t n).top10_table =
      match ((columns t).filter journalMatch).head? with
      | some jc => (getCol t jc).map (fun col => (value_counts col).take 10)
      | none => none := rfl

theorem show_dashboard_journal_fig (t : Table Str) (n : Nat) :
    (show_dashboard t n).journal_fig =
      match ((columns t).filter journalMatch).head? with
      | some jc => plot_top_journals t jc n
      | none => none := rfl

/-- C9: the "Top 10 Journals" table rendered by `show_dashboard` is the
same whatever the top-N slider value and always holds at most 10 rows
(`value_counts().head(10)` with a hard-coded 10); only the adjacent bar
chart is computed from the slider value. -/
theorem top10_table_independent (t : Table Str) (n₁ n₂ : Nat) :
    (show_dashboard t n₁).top10_table = (show_dashboard t n₂).top10_table ∧
    (∀ l, (show_dashboard t n₁).top10_table = some l → l.length ≤ 10) ∧
    (∀ jc col, ((columns t).filter journalMatch).head? = some jc →
        getCol t jc = some col →
        (show_dashboard t n₁).journal_fig = plot_top_journals t jc n₁ ∧
        (show_dashboard t n₁).top10_table =
          some ((value_counts col).take 10)) := by
  refine ⟨rfl, ?_, ?_⟩
  · intro l hl
    rw [show_dashboard_top10] at hl
    cases hh : ((columns t).filter journalMatch).head? with
    | none => rw [hh] at hl; exact absurd hl (by simp)
    | some jc =>
      rw [hh] at hl
      obtain ⟨col, _, rfl⟩ := Option.map_eq_some'.mp hl
      rw [List.length_take]
      exact min_le_left _ _
  · intro jc col hjc hcol
    constructor
    · rw [show_dashboard_journal_fig, hjc]
    · rw [show_dashboard_top10, hjc]
      show (getCol t jc).map (fun col => (value_counts col).take 10) =
        some ((value_counts col).take 10)
      rw [hcol]
      rfl

/-- C9 witness: the theorem applied to the concrete journal table at two
different slider values. -/
theorem top10_table_independent_witness :
    ((columns journalTable).filter journalMatch).head? =
      some "journal".toList ∧
    getCol journalTable "journal".toList = some journalColData ∧
    ((show_dashboard journalTable 5).top10_table =
        (show_dashboard journalTable 20).top10_table ∧
     (∀ l, (show_dashboard journalTable 5).top10_table = some l →
        l.length ≤ 10) ∧
     (∀ jc col,
        ((columns journalTable).filter journalMatch).head? = some jc →
        getCol journalTable jc = some col →
        (show_dashboard journalTable 5).journal_fig =
          plot_top_journals journalTable jc 5 ∧
        (show_dashboard journalTable 5).top10_table =
          some ((value_counts col).take 10))) :=
  ⟨rfl, rfl, top10_table_independent journalTable 5 20⟩

/-! ### Claim C10: the loader is total -/

/-- C10: every file-read outcome — a parsed table, a missing file, or any
other exception whatever its message — is handled by `load_data` without
propagating: it returns either a table with no error surfaced, or the
absent-table result `none` together with a surfaced error message. -/
theorem load_data_total (r : ReadResult) :
    ((load_data r).1.isSome = true ∧ hasError (load_data r).2 = false) ∨
    ((load_data r).1 = none ∧ hasError (load_data r).2 = true) := by
  cases r with
  | ok t => exact Or.inl ⟨rfl, rfl⟩
  | fileNotFound => exact Or.inr ⟨rfl, rfl⟩
  | exc msg => exact Or.inr ⟨rfl, rfl⟩

end App
